import Mathlib

/-!
# Shallow embedding of the notes2Quiz quiz session core

This file embeds the quiz logic of the repository in Lean 4 and proves
properties of it.  The embedded functions are translated from:

* `src/quiz-simple.ts` — the `SimpleQuizApp` class (answer extraction,
  Fisher–Yates shuffle, text-answer submission with `alert` validation);
* the React `QuizApp` component (third section of `dist/quiz-simple.d.ts`) —
  the session state machine with checkpoint persistence
  (`saveState` / `loadState` / `clearSavedState`, `selectOption`,
  `submitTextAnswer`, `handleSelfAssessment`, `goToNextQuestion`,
  `toggleMode`, `accuracy`).

Modelling conventions:

* JS strings become `String`; `toLowerCase()` and `trim()` become the
  kernel-reducible `jsToLower` and `jsTrim` below.
* JS array indexing `xs[i]` that may yield `undefined` becomes `List.get?`
  (an `Option`).
* A thrown JS exception becomes the `.error` case of `Except String`.
* The non-negative integer counters become `Nat`.
* The random source of `Math.random` is abstracted as a choice function
  `rand : Nat → Nat` giving, for each loop index `i`, the chosen index `j`
  (the code always produces `j ∈ [0, i]`; the permutation property below is
  proved for an arbitrary choice function).
* `JSON.stringify` / `JSON.parse` of plain data are modelled at the level of
  a JSON value tree: the checkpoint entry of `localStorage` holds a `Json`
  value, and the untyped `JSON.parse(...) as QuizState` cast is modelled by
  a structural decoder that reads back exactly the fields `saveState` wrote.
-/

/-- The four answer letters `'A' | 'B' | 'C' | 'D'` (`AnswerLetter`). -/
inductive Letter where
  | A | B | C | D
deriving DecidableEq, Repr

/-- The letter table `const letters: AnswerLetter[] = ['A', 'B', 'C', 'D']`. -/
def letters : List Letter := [.A, .B, .C, .D]

/-- The `QuizQuestion` interface: `{ category, difficulty, context?,
question, alternatives, answer }`. -/
structure Question where
  category : String
  difficulty : String
  context : Option String
  question : String
  alternatives : List String
  answer : String
deriving DecidableEq, Repr

/-- JS `toLowerCase()`: lower-case every character.  (Defined over the
character list so that proofs can evaluate it; Lean's own `String.toLower`
is not kernel-reducible.) -/
def jsToLower (s : String) : String := ⟨s.data.map Char.toLower⟩

/-- JS `trim()`: strip whitespace from both ends. -/
def jsTrim (s : String) : String :=
  ⟨((s.data.dropWhile Char.isWhitespace).reverse.dropWhile
      Char.isWhitespace).reverse⟩

/-- The normalization applied to both sides of the comparison in
`extractCorrectAnswer`: `text.toLowerCase().trim()`. -/
def normalizeAnswer (s : String) : String := jsTrim (jsToLower s)

/-- The scanning loop of `extractCorrectAnswer`: walk the alternatives in
order, carrying the current index `i`, and return the index of the first
alternative whose normalized text equals the normalized answer. -/
def findMatchIdx : List String → String → Nat → Option Nat
  | [], _, _ => none
  | alt :: rest, ans, i =>
    if normalizeAnswer alt = normalizeAnswer ans then some i
    else findMatchIdx rest ans (i + 1)

/-- Function `extractCorrectAnswer(answerText)` of the React `QuizApp` (identical
logic in `SimpleQuizApp`): returns `'A'` when there is no current question;
otherwise returns `letters[i]` for the first matching alternative index `i`
(`letters.get? i`, since `letters[i]` is `undefined` in JS for `i ≥ 4`), and
throws `Could not find matching alternative for answer: "..."` when no
alternative matches. -/
def extractCorrectAnswer (currentQuestion : Option Question)
    (answerText : String) : Except String (Option Letter) :=
  match currentQuestion with
  | none => .ok (some .A)
  | some q =>
    match findMatchIdx q.alternatives answerText 0 with
    | some i => .ok (letters.get? i)
    | none =>
      .error ("Could not find matching alternative for answer: \"" ++
        answerText ++ "\"")

/-- The destructuring swap
`[qs[i], qs[j]] = [qs[j], qs[i]]` on a list; if either index is out of
bounds the list is returned unchanged (the shuffle only ever swaps
in-bounds indices). -/
def listSwap (l : List α) (i j : Nat) : List α :=
  match l.get? i, l.get? j with
  | some a, some b => (l.set i b).set j a
  | _, _ => l

/-- The Fisher–Yates loop of `shuffleQuestions`:
`for (let i = len - 1; i > 0; i--) { const j = …; swap(i, j) }`.
`fisherYatesAux rand i l` performs the swaps for indices `i, i-1, …, 1`. -/
def fisherYatesAux (rand : Nat → Nat) : Nat → List α → List α
  | 0, l => l
  | k + 1, l => fisherYatesAux rand k (listSwap l (k + 1) (rand (k + 1)))

/-- Method `shuffleQuestions` (also the shuffle inside the React `loadQuestions`):
Fisher–Yates over the whole list, with the random draws abstracted as
`rand`. -/
def shuffleQuestions (rand : Nat → Nat) (qs : List Question) : List Question :=
  fisherYatesAux rand (qs.length - 1) qs

/-- Moving the element at position `m` to the front while writing `a` into
its place is a permutation of putting `a` at the front. -/
theorem cons_set_perm (xs : List α) (m : Nat) (a b : α)
    (hm : xs.get? m = some b) :
    List.Perm (b :: xs.set m a) (a :: xs) := by
  induction xs generalizing m with
  | nil => simp at hm
  | cons y ys ih =>
    cases m with
    | zero =>
      simp only [List.get?_cons_zero, Option.some.injEq] at hm
      subst hm
      simpa using List.Perm.swap a y ys
    | succ k =>
      simp only [List.get?_cons_succ] at hm
      have h1 : List.Perm (b :: y :: ys.set k a) (y :: b :: ys.set k a) :=
        List.Perm.swap y b (ys.set k a)
      have h2 : List.Perm (y :: b :: ys.set k a) (y :: a :: ys) :=
        List.Perm.cons y (ih k hm)
      have h3 : List.Perm (y :: a :: ys) (a :: y :: ys) :=
        List.Perm.swap a y ys
      simpa using (h1.trans h2).trans h3

/-- Writing each of two in-bounds elements into the other's position is a
permutation of the original list. -/
theorem set_set_swap_perm (l : List α) (i j : Nat) (a b : α)
    (hi : l.get? i = some a) (hj : l.get? j = some b) :
    List.Perm ((l.set i b).set j a) l := by
  induction l generalizing i j with
  | nil => simp at hi
  | cons x xs ih =>
    cases i with
    | zero =>
      simp only [List.get?_cons_zero, Option.some.injEq] at hi
      cases j with
      | zero =>
        simp only [List.get?_cons_zero, Option.some.injEq] at hj
        subst hi; subst hj
        simp
      | succ m =>
        simp only [List.get?_cons_succ] at hj
        subst hi
        simpa using cons_set_perm xs m x b hj
    | succ n =>
      simp only [List.get?_cons_succ] at hi
      cases j with
      | zero =>
        simp only [List.get?_cons_zero, Option.some.injEq] at hj
        subst hj
        simpa using cons_set_perm xs n x a hi
      | succ m =>
        simp only [List.get?_cons_succ] at hj
        simpa using List.Perm.cons x (ih n m hi hj)

/-- The swap `listSwap` always yields a permutation of its input. -/
theorem listSwap_perm (l : List α) (i j : Nat) :
    List.Perm (listSwap l i j) l := by
  unfold listSwap
  cases hi : l.get? i with
  | none => simp
  | some a =>
    cases hj : l.get? j with
    | none => simp
    | some b => exact set_set_swap_perm l i j a b hi hj

/-- Every pass of the Fisher–Yates loop yields a permutation of its input,
for any choice function. -/
theorem fisherYatesAux_perm (rand : Nat → Nat) (k : Nat) (l : List α) :
    List.Perm (fisherYatesAux rand k l) l := by
  induction k generalizing l with
  | zero => simp [fisherYatesAux]
  | succ n ih =>
    exact (ih (listSwap l (n + 1) (rand (n + 1)))).trans
      (listSwap_perm l (n + 1) (rand (n + 1)))

/-! ## Session state machine (React `QuizApp` component) -/

/-- The feedback record `feedbackData`: `{ isCorrect, selectedLetter?, correctLetter, userAnswer? }`.
`correctLetter` is an `Option Letter` because `extractCorrectAnswer` returns
`letters[i]`, which in JS is `undefined` for an out-of-range index. -/
structure Feedback where
  isCorrect : Bool
  selectedLetter : Option Letter
  correctLetter : Option Letter
  userAnswer : Option String
deriving DecidableEq, Repr

/-- The state hooks of the React `QuizApp` component that drive the quiz
session (`questions`, `currentQuestionIndex`, `hasAnswered`,
`questionsAttempted`, `correctCount`, `isTextMode`, `userAnswer`,
`showSelfAssessment`, `showFeedback`, `feedbackData`). -/
structure SessionState where
  questions : List Question
  currentQuestionIndex : Nat
  hasAnswered : Bool
  questionsAttempted : Nat
  correctCount : Nat
  isTextMode : Bool
  userAnswer : String
  showSelfAssessment : Bool
  showFeedback : Bool
  feedbackData : Option Feedback
deriving DecidableEq, Repr

/-- The derived value `const currentQuestion = questions[currentQuestionIndex]`. -/
def SessionState.currentQuestion (st : SessionState) : Option Question :=
  st.questions.get? st.currentQuestionIndex

/-- The fresh session built once questions are loaded (all counters zero,
multiple-choice mode, nothing answered). -/
def initState (qs : List Question) : SessionState :=
  { questions := qs
    currentQuestionIndex := 0
    hasAnswered := false
    questionsAttempted := 0
    correctCount := 0
    isTextMode := false
    userAnswer := ""
    showSelfAssessment := false
    showFeedback := false
    feedbackData := none }

/-- Handler `selectOption(selectedLetter)`: no-op when `hasAnswered` or there is no
current question; otherwise marks the question answered, compares the
selected letter with the extracted correct letter, bumps the counters and
emits feedback.  A throw from `extractCorrectAnswer` is the `.error`
case. -/
def selectOption (st : SessionState) (selectedLetter : Letter) :
    Except String SessionState :=
  if st.hasAnswered then .ok st else
  match st.currentQuestion with
  | none => .ok st
  | some q =>
    match extractCorrectAnswer (some q) q.answer with
    | .error e => .error e
    | .ok correctLetter =>
      let isCorrect : Bool := some selectedLetter == correctLetter
      .ok { st with
        hasAnswered := true
        questionsAttempted := st.questionsAttempted + 1
        correctCount := st.correctCount + (if isCorrect then 1 else 0)
        feedbackData := some
          { isCorrect := isCorrect
            selectedLetter := some selectedLetter
            correctLetter := correctLetter
            userAnswer := none }
        showFeedback := true }

/-- Handler `submitTextAnswer()` of the React component: no-op when `hasAnswered`,
when there is no current question, or when `userAnswer.trim()` is empty;
otherwise marks the question answered and enters the self-assessment
sub-state without touching the counters. -/
def submitTextAnswer (st : SessionState) : Except String SessionState :=
  if st.hasAnswered then .ok st else
  match st.currentQuestion with
  | none => .ok st
  | some q =>
    if jsTrim st.userAnswer = "" then .ok st
    else
      match extractCorrectAnswer (some q) q.answer with
      | .error e => .error e
      | .ok correctLetter =>
        .ok { st with
          hasAnswered := true
          showSelfAssessment := true
          feedbackData := some
            { isCorrect := false
              selectedLetter := none
              correctLetter := correctLetter
              userAnswer := some (jsTrim st.userAnswer) } }

/-- Handler `handleSelfAssessment(isCorrect)`: unconditionally bumps `attempted`
(and `correct` when the user says so), leaves the self-assessment sub-state
and shows feedback.  There is no guard of any kind. -/
def handleSelfAssessment (st : SessionState) (isCorrect : Bool) :
    SessionState :=
  { st with
    questionsAttempted := st.questionsAttempted + 1
    correctCount := st.correctCount + (if isCorrect then 1 else 0)
    showSelfAssessment := false
    feedbackData := st.feedbackData.map (fun fd => { fd with isCorrect := isCorrect })
    showFeedback := true }

/-- Handler `goToNextQuestion()`: returns unchanged when
`currentQuestionIndex + 1 >= questions.length` (the `// Quiz complete`
early return); otherwise advances and resets the per-question state. -/
def goToNextQuestion (st : SessionState) : SessionState :=
  if st.currentQuestionIndex + 1 ≥ st.questions.length then st
  else
    { st with
      currentQuestionIndex := st.currentQuestionIndex + 1
      hasAnswered := false
      userAnswer := ""
      showSelfAssessment := false
      showFeedback := false
      feedbackData := none }

/-- Handler `toggleMode()`: flips the input mode and resets the per-question
state. -/
def toggleMode (st : SessionState) : SessionState :=
  { st with
    isTextMode := !st.isTextMode
    hasAnswered := false
    userAnswer := ""
    showSelfAssessment := false
    showFeedback := false
    feedbackData := none }

/-- The render condition of the completion screen:
`currentQuestionIndex >= questions.length`. -/
def isComplete (st : SessionState) : Bool :=
  st.currentQuestionIndex ≥ st.questions.length

/-- The user actions the component accepts: picking an option, typing into
the free-text field, submitting it, the two self-assessment buttons, the
next button and the mode toggle. -/
inductive QuizAction where
  | select (l : Letter)
  | typeAnswer (t : String)
  | submitText
  | assess (isCorrect : Bool)
  | next
  | toggle
deriving DecidableEq, Repr

/-- One synchronous event-handler invocation.  A thrown exception aborts
the handler; the counters it would have touched are left as they were. -/
def step (st : SessionState) : QuizAction → SessionState
  | .select l =>
    match selectOption st l with
    | .ok s => s
    | .error _ => st
  | .typeAnswer t => { st with userAnswer := t }
  | .submitText =>
    match submitTextAnswer st with
    | .ok s => s
    | .error _ => st
  | .assess b => handleSelfAssessment st b
  | .next => goToNextQuestion st
  | .toggle => toggleMode st

/-- Running a sequence of user actions from a state. -/
def run (st : SessionState) : List QuizAction → SessionState
  | [] => st
  | a :: rest => run (step st a) rest

/-- The displayed accuracy:
`questionsAttempted > 0 ? Math.round((correctCount / questionsAttempted) * 100) : 0`.
JS computes this on IEEE doubles; it is modelled exactly over `ℚ`
(`Math.round`, which rounds halves up, is Mathlib's `round`). -/
def accuracy (correctCount questionsAttempted : Nat) : Int :=
  if questionsAttempted > 0 then
    round ((correctCount : ℚ) / (questionsAttempted : ℚ) * 100)
  else 0

/-! ## `SimpleQuizApp.submitTextAnswer` (src/quiz-simple.ts) -/

/-- The relevant mutable fields of the `SimpleQuizApp` class
(`src/quiz-simple.ts`), together with the free-text input widget's current
value. -/
structure TSState where
  questions : List Question
  currentQuestionIndex : Nat
  hasAnswered : Bool
  questionsAttempted : Nat
  correctCount : Nat
  isTextMode : Bool
  answerInputValue : String
  selfAssessmentVisible : Bool
deriving DecidableEq, Repr

/-- Method `SimpleQuizApp.submitTextAnswer()`: silently returns when already
answered or no current question; when the trimmed input is empty it fires
`alert('Please enter an answer before submitting.')` and returns without
touching any state; otherwise it marks the question answered and shows the
self-assessment panel.  The result is the new state, the list of alerts
fired, and the message of a thrown exception if any
(`extractCorrectAnswer` runs after `hasAnswered` was already set). -/
def submitTextAnswerTS (st : TSState) :
    TSState × List String × Option String :=
  if st.hasAnswered then (st, [], none) else
  match st.questions.get? st.currentQuestionIndex with
  | none => (st, [], none)
  | some q =>
    let userAnswer := jsTrim st.answerInputValue
    if userAnswer = "" then
      (st, ["Please enter an answer before submitting."], none)
    else
      match extractCorrectAnswer (some q) q.answer with
      | .error e => ({ st with hasAnswered := true }, [], some e)
      | .ok _ =>
        ({ st with hasAnswered := true, selfAssessmentVisible := true },
          [], none)

/-! ## Checkpoint store (React `saveState` / `loadState`) -/

/-- A JSON value tree (the image of `JSON.stringify` on the plain data this
program persists). -/
inductive Json where
  | str (s : String)
  | num (n : Int)
  | bool (b : Bool)
  | arr (xs : List Json)
  | obj (fields : List (String × Json))

/-- Field lookup on a JSON object (`undefined` on anything else). -/
def Json.getField (j : Json) (k : String) : Option Json :=
  match j with
  | .obj fs => fs.lookup k
  | _ => none

/-- Reading a JSON value back as a string. -/
def Json.asString : Json → Option String
  | .str s => some s
  | _ => none

/-- Reading a JSON value back as a non-negative integer. -/
def Json.asNat : Json → Option Nat
  | .num (Int.ofNat n) => some n
  | _ => none

/-- Reading a JSON value back as a boolean. -/
def Json.asBool : Json → Option Bool
  | .bool b => some b
  | _ => none

/-- Reading back each element of a JSON array as a string (the whole read
fails if any element is not a string). -/
def Json.asStrings : List Json → Option (List String)
  | [] => some []
  | j :: rest => do
    let s ← j.asString
    let ss ← Json.asStrings rest
    pure (s :: ss)

/-- Reading a JSON value back as an array of strings. -/
def Json.asStringList : Json → Option (List String)
  | .arr xs => Json.asStrings xs
  | _ => none

/-- The image under `JSON.stringify` of one `QuizQuestion`: the optional `context` key is
omitted when the field is `undefined`. -/
def encodeQuestion (q : Question) : Json :=
  .obj ([("category", .str q.category), ("difficulty", .str q.difficulty)]
    ++ (match q.context with
        | some c => [("context", Json.str c)]
        | none => [])
    ++ [("question", .str q.question),
        ("alternatives", .arr (q.alternatives.map .str)),
        ("answer", .str q.answer)])

/-- The typed view of a parsed question object (the shape the
`as QuizState` cast promises for each element of `shuffledQuestions`). -/
def decodeQuestion (j : Json) : Option Question := do
  let category ← (j.getField "category").bind Json.asString
  let difficulty ← (j.getField "difficulty").bind Json.asString
  let context := (j.getField "context").bind Json.asString
  let question ← (j.getField "question").bind Json.asString
  let alternatives ← (j.getField "alternatives").bind Json.asStringList
  let answer ← (j.getField "answer").bind Json.asString
  pure
    { category := category
      difficulty := difficulty
      context := context
      question := question
      alternatives := alternatives
      answer := answer }

/-- Parsing each element of the persisted question array. -/
def decodeQuestions : List Json → Option (List Question)
  | [] => some []
  | j :: rest => do
    let q ← decodeQuestion j
    let qs ← decodeQuestions rest
    pure (q :: qs)

/-- The persisted `QuizState` interface:
`{ currentQuestionIndex, questionsAttempted, correctCount, isTextMode,
shuffledQuestions }`. -/
structure QuizState where
  currentQuestionIndex : Nat
  questionsAttempted : Nat
  correctCount : Nat
  isTextMode : Bool
  shuffledQuestions : List Question
deriving DecidableEq, Repr

/-- The persisted projection of a live session: exactly the fields
`saveState` writes. -/
def persistedOf (st : SessionState) : QuizState :=
  { currentQuestionIndex := st.currentQuestionIndex
    questionsAttempted := st.questionsAttempted
    correctCount := st.correctCount
    isTextMode := st.isTextMode
    shuffledQuestions := st.questions }

/-- The image under `JSON.stringify` of the object literal built in `saveState`. -/
def encodeQuizState (st : SessionState) : Json :=
  .obj [("currentQuestionIndex", .num st.currentQuestionIndex),
        ("questionsAttempted", .num st.questionsAttempted),
        ("correctCount", .num st.correctCount),
        ("isTextMode", .bool st.isTextMode),
        ("shuffledQuestions", .arr (st.questions.map encodeQuestion))]

/-- The typed view of the parsed checkpoint
(`JSON.parse(savedState) as QuizState`). -/
def decodeQuizState (j : Json) : Option QuizState := do
  let idx ← (j.getField "currentQuestionIndex").bind Json.asNat
  let att ← (j.getField "questionsAttempted").bind Json.asNat
  let cor ← (j.getField "correctCount").bind Json.asNat
  let tm ← (j.getField "isTextMode").bind Json.asBool
  let qsJson ← j.getField "shuffledQuestions"
  let qs ←
    match qsJson with
    | .arr xs => decodeQuestions xs
    | _ => none
  pure
    { currentQuestionIndex := idx
      questionsAttempted := att
      correctCount := cor
      isTextMode := tm
      shuffledQuestions := qs }

/-- Store operation `saveState()`: `if (questions.length === 0) return;` then writes the
serialized snapshot under the fixed key `quizCheckpoint`.  The storage is
modelled as the content of that single entry. -/
def saveState (st : SessionState) (storage : Option Json) : Option Json :=
  if st.questions.length = 0 then storage else some (encodeQuizState st)

/-- Store operation `loadState()`: reads the `quizCheckpoint` entry and parses it; absence
(and a parse that does not produce the expected shape) yields `null`. -/
def loadState (storage : Option Json) : Option QuizState :=
  match storage with
  | none => none
  | some j => decodeQuizState j

/-- Encoding a list of strings and reading it back is the identity. -/
theorem asStrings_map_str (l : List String) :
    Json.asStrings (l.map .str) = some l := by
  induction l with
  | nil => rfl
  | cons s rest ih => simp [Json.asStrings, Json.asString, ih]

/-- A serialized question parses back to itself. -/
theorem decodeQuestion_encodeQuestion (q : Question) :
    decodeQuestion (encodeQuestion q) = some q := by
  rcases q with ⟨cat, diff, ctx, qu, alts, ans⟩
  cases ctx with
  | none =>
    simp [decodeQuestion, encodeQuestion, Json.getField, List.lookup,
      Json.asString, Json.asStringList, asStrings_map_str]
  | some c =>
    simp [decodeQuestion, encodeQuestion, Json.getField, List.lookup,
      Json.asString, Json.asStringList, asStrings_map_str]

/-- A serialized question list parses back to itself. -/
theorem decodeQuestions_map_encode (qs : List Question) :
    decodeQuestions (qs.map encodeQuestion) = some qs := by
  induction qs with
  | nil => rfl
  | cons q rest ih =>
    simp [decodeQuestions, decodeQuestion_encodeQuestion, ih]

/-- The serialized checkpoint parses back to exactly the persisted
projection of the session. -/
theorem decodeQuizState_encodeQuizState (st : SessionState) :
    decodeQuizState (encodeQuizState st) = some (persistedOf st) := by
  simp [decodeQuizState, encodeQuizState, Json.getField, List.lookup,
    Json.asNat, Json.asBool, decodeQuestions_map_encode, persistedOf]

/-! ## Example data -/

/-- The question of Scenario B. -/
def parisQuestion : Question :=
  { category := "Geography"
    difficulty := "easy"
    context := none
    question := "What is the capital of France?"
    alternatives := ["Paris", "Lyon", "Nice", "Lille"]
    answer := "Paris" }

/-- A malformed question: the `answer` matches no alternative. -/
def malformedQuestion : Question :=
  { category := "Geography"
    difficulty := "easy"
    context := none
    question := "What is the capital of France?"
    alternatives := ["Lyon", "Nice", "Lille", "Toulouse"]
    answer := "Paris" }

/-- The session after answering `parisQuestion` correctly in
multiple-choice mode (the value of
`selectOption (initState [parisQuestion]) .A`). -/
def answeredState : SessionState :=
  { questions := [parisQuestion]
    currentQuestionIndex := 0
    hasAnswered := true
    questionsAttempted := 1
    correctCount := 1
    isTextMode := false
    userAnswer := ""
    showSelfAssessment := false
    showFeedback := true
    feedbackData := some
      { isCorrect := true
        selectedLetter := some .A
        correctLetter := some .A
        userAnswer := none } }

/-! ## Lemmas about the answer-extraction scan -/

/-- If no alternative matches, the scan finds nothing. -/
theorem findMatchIdx_eq_none (alts : List String) (ans : String) (k : Nat)
    (h : ∀ alt ∈ alts, normalizeAnswer alt ≠ normalizeAnswer ans) :
    findMatchIdx alts ans k = none := by
  induction alts generalizing k with
  | nil => rfl
  | cons a rest ih =>
    have ha : normalizeAnswer a ≠ normalizeAnswer ans := h a (by simp)
    simp only [findMatchIdx, if_neg ha]
    exact ih (k + 1) (fun alt hm => h alt (by simp [hm]))

/-- If the alternatives contain exactly one match, sitting at position `i`,
the scan started with accumulator `k` returns `k + i`. -/
theorem findMatchIdx_of_unique (alts : List String) (ans : String)
    (alt : String) (i k : Nat)
    (hget : alts.get? i = some alt)
    (hmatch : normalizeAnswer alt = normalizeAnswer ans)
    (huniq : (alts.filter
      (fun a => normalizeAnswer a == normalizeAnswer ans)).length = 1) :
    findMatchIdx alts ans k = some (k + i) := by
  induction alts generalizing i k with
  | nil => simp at hget
  | cons a rest ih =>
    by_cases ha : normalizeAnswer a = normalizeAnswer ans
    · rw [List.filter_cons_of_pos (by simpa using ha)] at huniq
      simp only [List.length_cons, Nat.add_left_eq_self,
        List.length_eq_zero, List.filter_eq_nil_iff] at huniq
      have hnomatch :
          ∀ b ∈ rest, ¬ normalizeAnswer b = normalizeAnswer ans := by
        intro b hb
        simpa using huniq b hb
      cases i with
      | zero => simp [findMatchIdx, ha]
      | succ n =>
        exfalso
        simp only [List.get?_cons_succ] at hget
        exact hnomatch alt (List.get?_mem hget) hmatch
    · cases i with
      | zero =>
        simp only [List.get?_cons_zero, Option.some.injEq] at hget
        subst hget
        exact absurd hmatch ha
      | succ n =>
        simp only [List.get?_cons_succ] at hget
        have huniq' :
            (rest.filter
              (fun x => normalizeAnswer x == normalizeAnswer ans)).length
              = 1 := by
          rwa [List.filter_cons_of_neg (by simpa using ha)] at huniq
        simp only [findMatchIdx, if_neg ha]
        rw [show k + (n + 1) = (k + 1) + n by omega]
        exact ih n (k + 1) hget huniq'

/-! ## Claim theorems -/

/-- C1: for every question whose `answer` equals, case-insensitively after
trimming, exactly one element of its `alternatives`, `extractCorrectAnswer`
returns the letter A/B/C/D of that element's position (A = index 0, …,
D = index 3). -/
theorem extractCorrectAnswer_unique_match (q : Question) (i : Nat)
    (alt : String)
    (hget : q.alternatives.get? i = some alt)
    (hmatch : normalizeAnswer alt = normalizeAnswer q.answer)
    (huniq : (q.alternatives.filter
      (fun a => normalizeAnswer a == normalizeAnswer q.answer)).length = 1)
    (hi : i < 4) :
    extractCorrectAnswer (some q) q.answer = .ok (letters.get? i) ∧
    (letters.get? i).isSome = true := by
  constructor
  · have hf := findMatchIdx_of_unique q.alternatives q.answer alt i 0 hget
      hmatch huniq
    rw [Nat.zero_add] at hf
    simp only [extractCorrectAnswer, hf]
  · interval_cases i <;> simp [letters]

/-- C1 witness (Scenario B): for
`{alternatives: ["Paris","Lyon","Nice","Lille"], answer: "Paris"}` the
correct letter is `A`. -/
theorem extractCorrectAnswer_unique_match_witness :
    parisQuestion.alternatives.get? 0 = some "Paris" ∧
    normalizeAnswer "Paris" = normalizeAnswer parisQuestion.answer ∧
    (parisQuestion.alternatives.filter
      (fun a => normalizeAnswer a == normalizeAnswer parisQuestion.answer)).length = 1 ∧
    (0 : Nat) < 4 ∧
    extractCorrectAnswer (some parisQuestion) parisQuestion.answer
      = .ok (some Letter.A) :=
  ⟨rfl, rfl, by decide, by decide,
    (extractCorrectAnswer_unique_match parisQuestion 0 "Paris" rfl rfl
      (by decide) (by decide)).1⟩

/-- C2: for every non-empty question list, the Fisher–Yates shuffle
returns a permutation of its input — every input element occurs exactly as
often as before, and the length is preserved — for any sequence of random
draws. -/
theorem shuffleQuestions_permutation (rand : Nat → Nat)
    (qs : List Question) (_hne : qs ≠ []) :
    List.Perm (shuffleQuestions rand qs) qs ∧
    (shuffleQuestions rand qs).length = qs.length ∧
    ∀ q : Question, (shuffleQuestions rand qs).count q = qs.count q := by
  have hp : List.Perm (shuffleQuestions rand qs) qs :=
    fisherYatesAux_perm rand (qs.length - 1) qs
  exact ⟨hp, hp.length_eq, fun q => hp.count_eq q⟩

/-- C2 witness: shuffling the one-element list with the constant-zero draw
function. -/
theorem shuffleQuestions_permutation_witness :
    ([parisQuestion] : List Question) ≠ [] ∧
    List.Perm (shuffleQuestions (fun _ => 0) [parisQuestion])
      [parisQuestion] :=
  ⟨by simp,
    (shuffleQuestions_permutation (fun _ => 0) [parisQuestion] (by simp)).1⟩

/-- C3: when no alternative matches the answer (case-insensitively, after
trimming), `extractCorrectAnswer` fails with the
`Could not find matching alternative` error instead of returning a default
letter. -/
theorem extractCorrectAnswer_no_match (q : Question) (ans : String)
    (h : ∀ alt ∈ q.alternatives,
      normalizeAnswer alt ≠ normalizeAnswer ans) :
    extractCorrectAnswer (some q) ans
      = .error ("Could not find matching alternative for answer: \"" ++
          ans ++ "\"") := by
  simp only [extractCorrectAnswer, findMatchIdx_eq_none q.alternatives ans 0 h]

/-- C3 witness: a question whose `answer` (`"Paris"`) matches none of its
alternatives makes `extractCorrectAnswer` throw. -/
theorem extractCorrectAnswer_no_match_witness :
    (∀ alt ∈ malformedQuestion.alternatives,
      normalizeAnswer alt ≠ normalizeAnswer malformedQuestion.answer) ∧
    extractCorrectAnswer (some malformedQuestion) malformedQuestion.answer
      = .error ("Could not find matching alternative for answer: \"" ++
          malformedQuestion.answer ++ "\"") :=
  ⟨by decide,
    extractCorrectAnswer_no_match malformedQuestion malformedQuestion.answer
      (by decide)⟩

/-- C4: a second multiple-choice submission before advancing is a no-op,
not an error: whatever a successful `selectOption` call produced, calling
`selectOption` again on the result returns it unchanged (counters
included). -/
theorem selectOption_resubmit_noop (st st₁ : SessionState) (l l' : Letter)
    (h : selectOption st l = .ok st₁) :
    selectOption st₁ l' = .ok st₁ := by
  unfold selectOption at h
  split at h
  · -- already answered: the first call was itself a no-op
    rename_i hA
    obtain rfl : st = st₁ := by simpa using h
    unfold selectOption
    rw [if_pos hA]
  · rename_i hA
    split at h
    · -- no current question: the first call was a no-op
      rename_i hq
      obtain rfl : st = st₁ := by simpa using h
      unfold selectOption
      rw [if_neg hA]
      rw [hq]
    · rename_i q hq
      split at h
      · exact absurd h (by simp)
      · -- a real submission: it set `hasAnswered`, so the second call bails
        simp only [Except.ok.injEq] at h
        subst h
        unfold selectOption
        rw [if_pos rfl]

/-- C4 witness: answering `parisQuestion` with `A` and then submitting `B`
before advancing leaves the state (and both counters) untouched. -/
theorem selectOption_resubmit_noop_witness :
    selectOption (initState [parisQuestion]) .A = .ok answeredState ∧
    selectOption answeredState .B = .ok answeredState :=
  ⟨rfl,
    selectOption_resubmit_noop (initState [parisQuestion]) answeredState
      .A .B rfl⟩

/-- C5: in every state the displayed accuracy is `0` when no question has
been attempted and `round(100 * correct / attempted)` (half rounded up,
exactly `Math.round`) otherwise. -/
theorem accuracy_round_formula (st : SessionState) :
    accuracy st.correctCount st.questionsAttempted =
      if st.questionsAttempted = 0 then 0
      else round ((100 * (st.correctCount : ℚ)) /
        (st.questionsAttempted : ℚ)) := by
  unfold accuracy
  rcases Nat.eq_zero_or_pos st.questionsAttempted with h | h
  · simp [h]
  · rw [if_pos h, if_neg (Nat.pos_iff_ne_zero.mp h)]
    congr 1
    ring

/-- A successful `selectOption` either leaves the counters alone (the
no-op guards) or bumps `attempted` by one and `correct` by at most one. -/
theorem selectOption_counters (st : SessionState) (l : Letter)
    (s : SessionState) (h : selectOption st l = .ok s) :
    (s.questionsAttempted = st.questionsAttempted ∧
      s.correctCount = st.correctCount) ∨
    (∃ b : Bool, s.questionsAttempted = st.questionsAttempted + 1 ∧
      s.correctCount = st.correctCount + (if b then 1 else 0)) := by
  unfold selectOption at h
  split at h
  · obtain rfl : st = s := by simpa using h
    exact Or.inl ⟨rfl, rfl⟩
  · split at h
    · obtain rfl : st = s := by simpa using h
      exact Or.inl ⟨rfl, rfl⟩
    · split at h
      · exact absurd h (by simp)
      · rename_i cl hcl
        simp only [Except.ok.injEq] at h
        subst h
        exact Or.inr ⟨some l == cl, rfl, rfl⟩

/-- A successful `submitTextAnswer` never touches the counters. -/
theorem submitTextAnswer_counters (st : SessionState) (s : SessionState)
    (h : submitTextAnswer st = .ok s) :
    s.questionsAttempted = st.questionsAttempted ∧
    s.correctCount = st.correctCount := by
  unfold submitTextAnswer at h
  split at h
  · obtain rfl : st = s := by simpa using h
    exact ⟨rfl, rfl⟩
  · split at h
    · obtain rfl : st = s := by simpa using h
      exact ⟨rfl, rfl⟩
    · split at h
      · obtain rfl : st = s := by simpa using h
        exact ⟨rfl, rfl⟩
      · split at h
        · exact absurd h (by simp)
        · simp only [Except.ok.injEq] at h
          subst h
          exact ⟨rfl, rfl⟩

/-- Every single event handler keeps `correct ≤ attempted`. -/
theorem step_preserves_le (st : SessionState) (a : QuizAction)
    (h : st.correctCount ≤ st.questionsAttempted) :
    (step st a).correctCount ≤ (step st a).questionsAttempted := by
  cases a with
  | select l =>
    simp only [step]
    rcases hsel : selectOption st l with e | s
    · simp only [hsel]
      exact h
    · simp only [hsel]
      rcases selectOption_counters st l s hsel with ⟨h1, h2⟩ | ⟨b, h1, h2⟩
      · rw [h1, h2]; exact h
      · rw [h1, h2]; cases b <;> simp <;> omega
  | typeAnswer t => exact h
  | submitText =>
    simp only [step]
    rcases hsub : submitTextAnswer st with e | s
    · simp only [hsub]
      exact h
    · simp only [hsub]
      obtain ⟨h1, h2⟩ := submitTextAnswer_counters st s hsub
      rw [h1, h2]; exact h
  | assess b =>
    cases b <;> simp [step, handleSelfAssessment] <;> omega
  | next =>
    simp only [step, goToNextQuestion]
    split
    · exact h
    · exact h
  | toggle => exact h

/-- C6: starting from the fresh session (both counters `0`, and both
counters are natural numbers, hence never negative), every sequence of
user actions keeps `correct ≤ attempted`. -/
theorem session_correct_le_attempted (qs : List Question)
    (acts : List QuizAction) :
    (run (initState qs) acts).correctCount
      ≤ (run (initState qs) acts).questionsAttempted := by
  have key : ∀ (as : List QuizAction) (s : SessionState),
      s.correctCount ≤ s.questionsAttempted →
      (run s as).correctCount ≤ (run s as).questionsAttempted := by
    intro as
    induction as with
    | nil => intro s hs; exact hs
    | cons a rest ih =>
      intro s hs
      exact ih (step s a) (step_preserves_le s a hs)
  exact key acts (initState qs) (Nat.le_refl 0)

/-- C7 counterexample: the claim "for every Session State, `save` then
`load` yields the persisted fields back" fails at a session whose question
list is empty — `saveState` returns early on
`questions.length === 0`, so against an empty store `loadState` yields
nothing. -/
theorem saveState_loadState_empty_fails :
    loadState (saveState (initState []) none)
      ≠ some (persistedOf (initState [])) := by
  simp [saveState, loadState, initState]

/-- C7 (amended): for every session whose question list is non-empty,
writing the checkpoint and reading it back yields exactly the persisted
fields (`shuffledQuestions`/`orderedQuestions`, `currentQuestionIndex`,
`questionsAttempted`, `correctCount`, `isTextMode`), whatever the store
held before. -/
theorem saveState_loadState_roundTrip (st : SessionState)
    (storage : Option Json) (h : st.questions ≠ []) :
    loadState (saveState st storage) = some (persistedOf st) := by
  unfold saveState
  rw [if_neg (by simpa using h)]
  exact decodeQuizState_encodeQuizState st

/-- C7 witness: round-trip at a concrete one-question session. -/
theorem saveState_loadState_roundTrip_witness :
    (initState [parisQuestion]).questions ≠ [] ∧
    loadState (saveState (initState [parisQuestion]) none)
      = some (persistedOf (initState [parisQuestion])) :=
  ⟨by simp [initState],
    saveState_loadState_roundTrip (initState [parisQuestion]) none
      (by simp [initState])⟩

/-- C8: evaluating the code at the failing input.  In `answeredState` the
user has answered the last (only) question; the claim says `advance()` now
brings `position` to `questions.length`, the session becomes Complete and
the checkpoint is cleared.  Instead `goToNextQuestion` hits its
`currentQuestionIndex + 1 >= questions.length` early return: the state is
unchanged, `position` stays below `length`, and the completion render
branch (the only place `clearSavedState` is invoked) stays unreachable. -/
theorem goToNextQuestion_stuck_at_last :
    goToNextQuestion answeredState = answeredState ∧
    (goToNextQuestion answeredState).currentQuestionIndex
      ≠ answeredState.questions.length ∧
    isComplete (goToNextQuestion answeredState) = false := by
  refine ⟨rfl, ?_, rfl⟩
  decide

/-- C9: submitting a free-text answer that is empty after trimming (with a
current question, before having answered) fires the
`Please enter an answer before submitting.` alert and leaves the whole
state unchanged — counters, position, mode, `hasAnswered` and the
self-assessment panel included — and throws nothing. -/
theorem submitTextAnswerTS_empty_rejected (st : TSState) (q : Question)
    (hA : st.hasAnswered = false)
    (hq : st.questions.get? st.currentQuestionIndex = some q)
    (hempty : jsTrim st.answerInputValue = "") :
    submitTextAnswerTS st
      = (st, ["Please enter an answer before submitting."], none) := by
  unfold submitTextAnswerTS
  rw [hA]
  simp only [Bool.false_eq_true, if_false, hq, hempty, if_true]

/-- A `SimpleQuizApp` state about to submit a whitespace-only answer. -/
def emptyInputTSState : TSState :=
  { questions := [parisQuestion]
    currentQuestionIndex := 0
    hasAnswered := false
    questionsAttempted := 0
    correctCount := 0
    isTextMode := true
    answerInputValue := "   "
    selfAssessmentVisible := false }

/-- C9 witness: submitting the whitespace-only input. -/
theorem submitTextAnswerTS_empty_rejected_witness :
    emptyInputTSState.hasAnswered = false ∧
    emptyInputTSState.questions.get? emptyInputTSState.currentQuestionIndex
      = some parisQuestion ∧
    jsTrim emptyInputTSState.answerInputValue = "" ∧
    submitTextAnswerTS emptyInputTSState
      = (emptyInputTSState,
          ["Please enter an answer before submitting."], none) :=
  ⟨rfl, rfl, by decide,
    submitTextAnswerTS_empty_rejected emptyInputTSState parisQuestion rfl
      rfl (by decide)⟩

/-- C10: `handleSelfAssessment` is unguarded — on every state it bumps
`attempted` by exactly one (and `correct` by one exactly when the user
claims correctness), so invoking it `n` times adds `n` to `attempted`. -/
theorem handleSelfAssessment_unconditional (st : SessionState) (b : Bool) :
    (handleSelfAssessment st b).questionsAttempted
      = st.questionsAttempted + 1 ∧
    (handleSelfAssessment st b).correctCount
      = st.correctCount + (if b then 1 else 0) ∧
    ∀ n : Nat,
      (run st (List.replicate n (QuizAction.assess b))).questionsAttempted
        = st.questionsAttempted + n := by
  refine ⟨rfl, rfl, ?_⟩
  intro n
  induction n generalizing st with
  | zero => rfl
  | succ m ih =>
    rw [List.replicate_succ]
    show (run (step st (QuizAction.assess b))
      (List.replicate m (QuizAction.assess b))).questionsAttempted = _
    rw [ih (step st (QuizAction.assess b))]
    show st.questionsAttempted + 1 + m = st.questionsAttempted + (m + 1)
    omega
